import Mathlib

/-
Verification of the OpenPNM Voronoi-fiber geometry pipeline
(`openpnm/materials/VoronoiFibers.py`) and the reaction solver
(`openpnm/algorithms/Reaction.py`) against their natural-language
specification.

Modelling conventions.
* Machine floats are modelled by exact rationals `ℚ`; all branch
  conditions in the modelled code are order comparisons, which the
  rational idealisation reproduces.  Rational arithmetic is performed
  through explicit `mkRat`-based operations (`qadd`, `qmul`, ...) so that
  every modelled computation evaluates inside the kernel; the bridge
  lemmas `qadd_eq`, `qle_iff`, ... identify them with the standard field
  operations on `ℚ`.
* numpy arrays are modelled by lists or by functions from index tuples;
  out-of-range indexing is modelled explicitly (`Except` with a Python
  error value) where the code can raise.
* Third-party library calls (scipy `distance_transform_edt`, skimage
  `convex_hull_image` / `regionprops`) are modelled from their documented
  behaviour, since their sources are external to this repository; the
  doc comment of each such definition states the behaviour modelled.
  Euclidean distances are carried squared (exactly), and every
  comparison of a distance against a radius is performed on squares,
  which is equivalent for nonnegative quantities.
-/

namespace OpenPNM

/-- Python exception values that the modelled code can raise. -/
inductive PyErr where
  | indexError
  | nameError
  | overflowError
  | valueError
  deriving DecidableEq, Inhabited

/- ------------------------------------------------------------------ -/
/- Kernel-evaluable rational arithmetic                                -/
/- ------------------------------------------------------------------ -/

/-- Addition on `ℚ`, written so that it evaluates by kernel reduction. -/
def qadd (a b : ℚ) : ℚ := mkRat (a.num * b.den + b.num * a.den) (a.den * b.den)

/-- Subtraction on `ℚ`, kernel-evaluable. -/
def qsub (a b : ℚ) : ℚ := mkRat (a.num * b.den - b.num * a.den) (a.den * b.den)

/-- Negation on `ℚ`, kernel-evaluable. -/
def qneg (a : ℚ) : ℚ := mkRat (-a.num) a.den

/-- Multiplication on `ℚ`, kernel-evaluable. -/
def qmul (a b : ℚ) : ℚ := mkRat (a.num * b.num) (a.den * b.den)

/-- Reciprocal on `ℚ`, kernel-evaluable; the reciprocal of zero is zero,
matching the `ℚ` convention. -/
def qinv (b : ℚ) : ℚ :=
  if 0 ≤ b.num then mkRat b.den b.num.toNat
  else mkRat (-(b.den : ℤ)) (-b.num).toNat

/-- Division on `ℚ`, kernel-evaluable; division by zero yields zero,
matching the `ℚ` convention. -/
def qdiv (a b : ℚ) : ℚ := qmul a (qinv b)

/-- Absolute value on `ℚ`, kernel-evaluable. -/
def qabs (a : ℚ) : ℚ := mkRat a.num.natAbs a.den

/-- Boolean less-or-equal on `ℚ`, kernel-evaluable. -/
def qle (a b : ℚ) : Bool := a.num * b.den ≤ b.num * a.den

/-- Boolean strict less-than on `ℚ`, kernel-evaluable. -/
def qlt (a b : ℚ) : Bool := a.num * b.den < b.num * a.den

theorem num_div_den_q (a : ℚ) : (a.num : ℚ) / (a.den : ℚ) = a := Rat.num_div_den a

theorem den_cast_ne_zero (a : ℚ) : ((a.den : ℚ)) ≠ 0 := by
  exact_mod_cast a.den_nz

theorem den_cast_pos (a : ℚ) : (0 : ℚ) < (a.den : ℚ) := by
  exact_mod_cast a.pos

theorem num_cast_eq (a : ℚ) : (a.num : ℚ) = a * a.den :=
  (div_eq_iff (den_cast_ne_zero a)).mp (num_div_den_q a)

theorem qadd_eq (a b : ℚ) : qadd a b = a + b := by
  rw [qadd, Rat.mkRat_eq_div]
  push_cast
  rw [div_eq_iff (mul_ne_zero (den_cast_ne_zero a) (den_cast_ne_zero b))]
  rw [num_cast_eq a, num_cast_eq b]
  ring

theorem qsub_eq (a b : ℚ) : qsub a b = a - b := by
  rw [qsub, Rat.mkRat_eq_div]
  push_cast
  rw [div_eq_iff (mul_ne_zero (den_cast_ne_zero a) (den_cast_ne_zero b))]
  rw [num_cast_eq a, num_cast_eq b]
  ring

theorem qneg_eq (a : ℚ) : qneg a = -a := by
  rw [qneg, Rat.mkRat_eq_div]
  push_cast
  rw [div_eq_iff (den_cast_ne_zero a)]
  rw [num_cast_eq a]
  ring

theorem qmul_eq (a b : ℚ) : qmul a b = a * b := by
  rw [qmul, Rat.mkRat_eq_div]
  push_cast
  rw [div_eq_iff (mul_ne_zero (den_cast_ne_zero a) (den_cast_ne_zero b))]
  rw [num_cast_eq a, num_cast_eq b]
  ring

theorem qabs_eq (a : ℚ) : qabs a = |a| := by
  rw [qabs, Rat.mkRat_eq_div]
  push_cast [Int.cast_natAbs]
  conv_rhs => rw [← num_div_den_q a]
  rw [abs_div, abs_of_pos (den_cast_pos a)]

theorem qlt_iff (a b : ℚ) : qlt a b = true ↔ a < b := by
  rw [qlt, decide_eq_true_eq]
  rw [show (a < b) ↔ ((a.num : ℚ) / a.den < (b.num : ℚ) / b.den) by
    rw [num_div_den_q, num_div_den_q]]
  rw [div_lt_div_iff₀ (den_cast_pos a) (den_cast_pos b)]
  exact_mod_cast Iff.rfl

theorem qlt_false_iff (a b : ℚ) : qlt a b = false ↔ b ≤ a := by
  rw [← not_lt]
  constructor
  · intro h hc
    rw [← qlt_iff] at hc
    rw [h] at hc
    cases hc
  · intro h
    cases hq : qlt a b with
    | true => exact absurd ((qlt_iff a b).mp hq) h
    | false => rfl

theorem mkRat_half : (mkRat 1 2 : ℚ) = 1/2 := by
  rw [Rat.mkRat_eq_div]
  norm_num

/- ------------------------------------------------------------------ -/
/- Half-even rounding (np.around)                                      -/
/- ------------------------------------------------------------------ -/

/-- Round a rational to the nearest integer, halves to even: the rounding
rule used by `np.around` / `np.rint`. -/
def nround (q : ℚ) : ℤ :=
  if qlt (qsub q (⌊q⌋ : ℚ)) (mkRat 1 2) then ⌊q⌋
  else if qlt (mkRat 1 2) (qsub q (⌊q⌋ : ℚ)) then ⌊q⌋ + 1
  else if ⌊q⌋ % 2 = 0 then ⌊q⌋ else ⌊q⌋ + 1

theorem floor_le_nround (q : ℚ) : ⌊q⌋ ≤ nround q := by
  unfold nround
  split
  · omega
  · split
    · omega
    · split <;> omega

theorem nround_le_floor_add_one (q : ℚ) : nround q ≤ ⌊q⌋ + 1 := by
  unfold nround
  split
  · omega
  · split
    · omega
    · split <;> omega

theorem nround_nonneg (q : ℚ) (hq : 0 ≤ q) : 0 ≤ nround q :=
  le_trans (Int.floor_nonneg.mpr hq) (floor_le_nround q)

theorem nround_le_ceil (q : ℚ) : nround q ≤ ⌈q⌉ := by
  rw [Int.le_ceil_iff]
  by_cases h : qlt (qsub q (⌊q⌋ : ℚ)) (mkRat 1 2) = true
  · have hnr : nround q = ⌊q⌋ := by unfold nround; rw [if_pos h]
    rw [hnr]
    have := Int.floor_le q
    linarith
  · have hf : qlt (qsub q (⌊q⌋ : ℚ)) (mkRat 1 2) = false := by
      cases hq : qlt (qsub q (⌊q⌋ : ℚ)) (mkRat 1 2) with
      | true => exact absurd hq h
      | false => rfl
    have h' : (1:ℚ)/2 ≤ q - ⌊q⌋ := by
      have := (qlt_false_iff _ _).mp hf
      rwa [mkRat_half, qsub_eq] at this
    have hlt : (⌊q⌋:ℚ) < q := by linarith
    have hb : nround q ≤ ⌊q⌋ + 1 := nround_le_floor_add_one q
    have hb' : ((nround q : ℤ) : ℚ) ≤ (⌊q⌋:ℚ) + 1 := by exact_mod_cast hb
    linarith

theorem nround_mono_le_ceil (q M : ℚ) (h : q ≤ M) : nround q ≤ ⌈M⌉ :=
  le_trans (nround_le_ceil q) (Int.ceil_le_ceil h)

/- ------------------------------------------------------------------ -/
/- 3D vectors and voxel indices                                        -/
/- ------------------------------------------------------------------ -/

/-- Exact-rational 3D vector (models a numpy length-3 float array). -/
structure Vec3 where
  x : ℚ
  y : ℚ
  z : ℚ
  deriving DecidableEq, Inhabited

/-- Dot product of two 3D vectors. -/
def dot3 (a b : Vec3) : ℚ := qadd (qadd (qmul a.x b.x) (qmul a.y b.y)) (qmul a.z b.z)

theorem dot3_eq (a b : Vec3) : dot3 a b = a.x * b.x + a.y * b.y + a.z * b.z := by
  rw [dot3, qadd_eq, qadd_eq, qmul_eq, qmul_eq, qmul_eq]

/-- Voxel index triple into a 3D grid. -/
abbrev Vox := ℕ × ℕ × ℕ

/-- Coordinates of a voxel index as a rational vector (the `indx, indy,
indz` integer grids of `inhull`). -/
def voxVec (v : Vox) : Vec3 := ⟨(v.1 : ℚ), (v.2.1 : ℚ), (v.2.2 : ℚ)⟩

/- ------------------------------------------------------------------ -/
/- VoronoiGeometry.inhull (VoronoiFibers.py lines 355-410)             -/
/- ------------------------------------------------------------------ -/

/-- Per-facet inside test of `inhull` (line 403): the voxel is on the
inner side of facet `f` (given as the pair of its inward-corrected
normal and one of its vertices) when `n·x - n·a ≥ 0 - tol`. -/
def facetTest (f : Vec3 × Vec3) (v : Vox) (tol : ℚ) : Bool :=
  qle (qsub 0 tol) (qsub (dot3 f.1 (voxVec v)) (dot3 f.1 f.2))

/-- Value of the `dom` counter of `inhull` at one voxel: `dom` is a
`np.uint8` array incremented once per facet whose inside test holds
(line 403), hence the increment wraps modulo 256. -/
def inhullCount (facets : List (Vec3 × Vec3)) (v : Vox) (tol : ℚ) : ℕ :=
  facets.foldl (fun d f => if facetTest f v tol then (d + 1) % 256 else d) 0

/-- Final per-voxel classification of `inhull` (lines 404-405): voxels
whose counter is below the facet count are zeroed, voxels whose counter
equals the facet count are marked inside. -/
def inhullVoxel (facets : List (Vec3 × Vec3)) (v : Vox) (tol : ℚ) : Bool :=
  inhullCount facets v tol == facets.length

/-- Merge of the classification into the hull label image
(lines 406-409): voxels classified inside receive the pore label, the
rest keep their previous label. -/
def inhullWrite (img : Vox → ℤ) (facets : List (Vec3 × Vec3)) (tol : ℚ)
    (pore : ℤ) : Vox → ℤ :=
  fun v => if inhullVoxel facets v tol then pore else img v

/-- Predicate from the spec: the voxel center is strictly inside the
hull, beyond the tolerance, for every facet. -/
def strictlyInsideHull (facets : List (Vec3 × Vec3)) (v : Vox) (tol : ℚ) : Bool :=
  facets.all (fun f => qlt tol (qsub (dot3 f.1 (voxVec v)) (dot3 f.1 f.2)))

theorem inhullCount_fold_lt (facets : List (Vec3 × Vec3)) (v : Vox) (tol : ℚ) :
    ∀ d : ℕ, d < 256 →
      facets.foldl (fun d f => if facetTest f v tol then (d + 1) % 256 else d) d < 256 := by
  induction facets with
  | nil => intro d hd; simpa using hd
  | cons f rest ih =>
      intro d hd
      simp only [List.foldl_cons]
      by_cases hf : facetTest f v tol = true
      · rw [if_pos hf]
        exact ih _ (Nat.mod_lt _ (by norm_num))
      · rw [if_neg hf]
        exact ih _ hd

theorem inhullCount_lt_256 (facets : List (Vec3 × Vec3)) (v : Vox) (tol : ℚ) :
    inhullCount facets v tol < 256 :=
  inhullCount_fold_lt facets v tol 0 (by norm_num)

/-- Claim C9: the per-voxel inside counter of `inhull` is an 8-bit
unsigned integer incremented once per facet, so with more than 255 hull
facets the final equality test against the facet count never holds:
every voxel is classified outside and the hull label image is left
unchanged for that pore. -/
theorem inhull_uint8_wraparound (facets : List (Vec3 × Vec3))
    (h : 255 < facets.length) (tol : ℚ) (img : Vox → ℤ) (pore : ℤ) :
    (∀ v : Vox, inhullVoxel facets v tol = false) ∧
      inhullWrite img facets tol pore = img := by
  have hfalse : ∀ v : Vox, inhullVoxel facets v tol = false := by
    intro v
    have hc : inhullCount facets v tol < 256 := inhullCount_lt_256 facets v tol
    have hne : inhullCount facets v tol ≠ facets.length :=
      Nat.ne_of_lt (lt_of_lt_of_le hc h)
    simpa [inhullVoxel] using hne
  refine ⟨hfalse, funext fun v => ?_⟩
  simp [inhullWrite, hfalse v]

/-- Hull facet list with 256 identical entries: stands for the facet
output of a hull triangulation with 256 simplices (any pore hull of
roughly 130 or more vertices in general position produces at least this
many). Normal `(0,0,1)`, facet vertex `(0,0,-5)`. -/
def hullFacets256 : List (Vec3 × Vec3) :=
  List.replicate 256 (⟨0, 0, 1⟩, ⟨0, 0, -5⟩)

/-- Witness for claim C9 at a concrete 256-facet input, voxel `(0,0,0)`,
the code's default tolerance `1e-7`, and an all-unassigned label image. -/
theorem inhull_uint8_wraparound_witness :
    255 < hullFacets256.length ∧
    ((∀ v : Vox, inhullVoxel hullFacets256 v (mkRat 1 (10^7)) = false) ∧
      inhullWrite (fun _ => (-1 : ℤ)) hullFacets256 (mkRat 1 (10^7)) 7 =
        (fun _ => (-1 : ℤ))) :=
  ⟨by rw [hullFacets256, List.length_replicate]; norm_num,
    inhull_uint8_wraparound hullFacets256
      (by rw [hullFacets256, List.length_replicate]; norm_num)
      (mkRat 1 (10^7)) (fun _ => (-1 : ℤ)) 7⟩

set_option maxRecDepth 40000 in
/-- Claim C2, evaluated at the failing input: a voxel strictly inside a
hull with 256 facets (all facet tests pass, with margin beyond the
tolerance) is nevertheless classified outside, because the `uint8`
counter wraps to `0 ≠ 256`; the same voxel against the same facet
repeated only 255 times is classified inside.  The spec requires
strictly-inside voxels to be classified inside for every hull. -/
theorem inhull_strictly_inside_misclassified :
    strictlyInsideHull hullFacets256 (0, 0, 0) (mkRat 1 (10^7)) = true ∧
    inhullVoxel hullFacets256 (0, 0, 0) (mkRat 1 (10^7)) = false ∧
    inhullVoxel (List.replicate 255 ((⟨0, 0, 1⟩ : Vec3), (⟨0, 0, -5⟩ : Vec3)))
      (0, 0, 0) (mkRat 1 (10^7)) = true := by
  refine ⟨by decide, by decide, by decide⟩

/- ------------------------------------------------------------------ -/
/- Fiber-image rasterization loop (VoronoiFibers.py lines 541-546)     -/
/- ------------------------------------------------------------------ -/

/-- Bounds check of a voxel index against the allocated grid shape.
Line-point coordinates are natural numbers: the vertices are translated
so their minimum is at the origin before rounding, so rounded
coordinates are nonnegative and the only possible out-of-bounds indices
are too-large ones, which raise `IndexError` in numpy. -/
def inBounds3 (lx ly lz : ℕ) (p : Vox) : Bool :=
  p.1 < lx && p.2.1 < ly && p.2.2 < lz

/-- Pointwise update of a voxel grid. -/
def setVox (g : Vox → ℕ) (p : Vox) (val : ℕ) : Vox → ℕ :=
  fun q => if q = p then val else g q

/-- Model of the rasterization loop (lines 541-546): each integer line
point zeroes its voxel of `pore_space`; an out-of-bounds point raises
`IndexError`, which is caught and logged as a warning, leaving the grid
unchanged, and the loop moves on to the next point. -/
def rasterLinePoints (lx ly lz : ℕ) (pts : List Vox) (g : Vox → ℕ) : Vox → ℕ :=
  pts.foldl (fun g' p => if inBounds3 lx ly lz p then setVox g' p 0 else g') g

/-- Claim C7: every rasterized point outside the allocated fiber grid is
dropped with no effect on any grid cell and processing of the remaining
points continues: the loop computes exactly the grid computed from the
in-bounds points alone, for every input list. -/
theorem raster_out_of_bounds_dropped (lx ly lz : ℕ) (pts : List Vox) (g : Vox → ℕ) :
    rasterLinePoints lx ly lz pts g =
      rasterLinePoints lx ly lz (pts.filter (inBounds3 lx ly lz)) g := by
  induction pts generalizing g with
  | nil => rfl
  | cons p rest ih =>
      cases hp : inBounds3 lx ly lz p with
      | true =>
          simp only [rasterLinePoints, List.foldl_cons, List.filter_cons, hp, if_pos,
            ↓reduceIte]
          exact ih (setVox g p 0)
      | false =>
          simp only [rasterLinePoints, List.foldl_cons, List.filter_cons, hp,
            Bool.false_eq_true, ↓reduceIte]
          exact ih g

/- ------------------------------------------------------------------ -/
/- Pore voxel tallies and in-diameter (VoronoiFibers.py 136-161,       -/
/- 438-459)                                                            -/
/- ------------------------------------------------------------------ -/

instance instDecEqExcept {ε α : Type} [DecidableEq ε] [DecidableEq α] :
    DecidableEq (Except ε α) := fun x y =>
  match x, y with
  | .ok a, .ok b =>
      if h : a = b then .isTrue (congrArg Except.ok h)
      else .isFalse (fun hc => h (Except.ok.inj hc))
  | .error a, .error b =>
      if h : a = b then .isTrue (congrArg Except.error h)
      else .isFalse (fun hc => h (Except.error.inj hc))
  | .ok _, .error _ => .isFalse (fun hc => Except.noConfusion hc)
  | .error _, .ok _ => .isFalse (fun hc => Except.noConfusion hc)

/-- The label grid is allocated as `np.ones_like(...) * -1` with dtype
`np.uint16` (line 427), so the "unassigned" sentinel `-1` is actually
stored as `65535`. -/
def uint16neg1 : ℕ := 65535

/-- Model of `scipy.stats.itemfreq`: the sorted distinct values of the
array paired with their occurrence counts. -/
def itemfreq (l : List ℕ) : List (ℕ × ℕ) :=
  (List.insertionSort (fun a b => a ≤ b) l.dedup).map (fun v => (v, l.count v))

/-- Fancy-index assignment `base[pairs[:,0]] = pairs[:,1]` on a numpy
array of length `base.length`: raises `IndexError` when any index is out
of range. -/
def fancySet (base : List ℕ) (pairs : List (ℕ × ℕ)) : Except PyErr (List ℕ) :=
  if pairs.all (fun p => p.1 < base.length) then
    .ok (pairs.foldl (fun b p => b.set p.1 p.2) base)
  else .error .indexError

/-- Model of `_process_pore_voxels` (lines 438-459) on the flattened
hull label image and binary fibre image: mask the label image by fibre
phase (the `-1` written into the `uint16` arrays is `65535`), take item
frequencies, keep rows whose value exceeds `-1` (the comparison
promotes the unsigned values, so every row passes, including the
sentinel), and assign the counts into the per-pore tallies.  Returns
`(pore_voxels, fibre_voxels)`. -/
def processPoreVoxels (numP : ℕ) (hull fibre : List ℕ) :
    Except PyErr (List ℕ × List ℕ) := do
  let poreSpace := List.zipWith (fun h fb => if fb = 0 then uint16neg1 else h) hull fibre
  let fibreSpace := List.zipWith (fun h fb => if fb = 1 then uint16neg1 else h) hull fibre
  let freqPore := (itemfreq poreSpace).filter (fun p => decide ((-1 : ℤ) < (p.1 : ℤ)))
  let freqFibre := (itemfreq fibreSpace).filter (fun p => decide ((-1 : ℤ) < (p.1 : ℤ)))
  let poreVox ← fancySet (List.replicate numP 0) freqPore
  let fibreVox ← fancySet (List.replicate numP 0) freqFibre
  return (poreVox, fibreVox)

/-- Maximum of the distance image masked to one pore label
(`dt_pore = self._dt_image * (self._hull_image == pore)` followed by
`.max()`); the distance image is nonnegative (it is clamped at zero on
line 585), so folding from zero computes the numpy maximum. -/
def maskedMax (hull : List ℕ) (dt : List ℚ) (pore : ℕ) : ℚ :=
  (List.zipWith (fun h d => if h = pore then d else 0) hull dt).foldl
    (fun m d => if qlt m d then d else m) 0

/-- Model of `_indiameter_from_fibres` (lines 136-161) on the flattened
hull label image and distance image: for each value of
`np.unique(self._hull_image)` (which includes the `uint16` sentinel
`65535` whenever any voxel is unassigned), write twice the masked
maximum into `indiam[pore]`, raising `IndexError` when the label is out
of the array's range, then scale by the voxel length.  The incenter
coordinate extraction of lines 155-158 is omitted: it writes into an
array indexed the same way and cannot be reached after the `indiam`
indexing raises. -/
def indiameterFromFibres (numP : ℕ) (hull : List ℕ) (dt : List ℚ)
    (voxLen : ℚ) : Except PyErr (List ℚ) := do
  let hullPores := List.insertionSort (fun a b => a ≤ b) hull.dedup
  let indiam ← hullPores.foldlM (fun ind pore =>
      if pore < ind.length then
        Except.ok (ind.set pore (qmul (maskedMax hull dt pore) 2))
      else Except.error PyErr.indexError)
    (List.replicate numP (0 : ℚ))
  return indiam.map (fun d => qmul d voxLen)

/-- Claim C6, evaluated at the failing input: with two pores, a 2-voxel
image whose first voxel belongs to pore 0 and whose second voxel is
unassigned (`uint16` sentinel), and an all-pore-space fibre image, pore
1 has zero assigned voxels, yet both the voxel tally and the in-diameter
extraction raise `IndexError` (the sentinel `65535` passes the `> -1`
filter and `np.unique`, and is then used as an index into the
`num_pores`-sized arrays) instead of completing normally with zeros as
the claim requires. -/
theorem pore_voxel_pipeline_crashes_on_unassigned :
    ([0, uint16neg1].count 1 = 0) ∧
    processPoreVoxels 2 [0, uint16neg1] [1, 1] = .error .indexError ∧
    indiameterFromFibres 2 [0, uint16neg1] [1, 1] 1 = .error .indexError := by
  refine ⟨by decide, by decide, by decide⟩

/- ------------------------------------------------------------------ -/
/- Fiber image construction (VoronoiFibers.py lines 489-586)           -/
/- ------------------------------------------------------------------ -/

/-- Squared Euclidean distance between two voxel indices. -/
def distSq3 (a b : Vox) : ℤ :=
  ((a.1 : ℤ) - b.1) * ((a.1 : ℤ) - b.1) +
    ((a.2.1 : ℤ) - b.2.1) * ((a.2.1 : ℤ) - b.2.1) +
    ((a.2.2 : ℤ) - b.2.2) * ((a.2.2 : ℤ) - b.2.2)

/-- Row-major enumeration of the voxel window
`[x0,x1) × [y0,y1) × [z0,z1)`. -/
def winVoxels (x0 x1 y0 y1 z0 z1 : ℕ) : List Vox :=
  (List.range (x1 - x0)).flatMap (fun i =>
    (List.range (y1 - y0)).flatMap (fun j =>
      (List.range (z1 - z0)).map (fun k => (x0 + i, y0 + j, z0 + k))))

/-- Model of `scipy.ndimage.distance_transform_edt` restricted to a
window of the binary grid `g` (1 = foreground, 0 = background): the
squared distance from `v` to the nearest zero voxel of the window, and
`none` when the window contains no zero voxel (the comparisons below
treat that case as an unboundedly large distance).  The transform sees
only the window, exactly as the code's `pore_space[cxmin:cxmax, ...]`
slice does. -/
def edtSqWin (g : Vox → ℕ) (win : List Vox) (v : Vox) : Option ℤ :=
  (win.filter (fun w => g w == 0)).foldl
    (fun m w =>
      match m with
      | none => some (distSq3 v w)
      | some m' => some (min m' (distSq3 v w)))
    none

/-- Classification of one voxel by the chunk's distance transform
(lines 573-578): fibre (0) when the distance to the nearest line voxel
is at most the fibre radius, pore space (1) otherwise; compared on
squares. -/
def edtClassify (fibreRad : ℕ) (d : Option ℤ) : ℕ :=
  match d with
  | some d' => if d' ≤ (fibreRad : ℤ) * (fibreRad : ℤ) then 0 else 1
  | none => 1

/-- One chunk pass of the loop body (lines 569-578): every voxel of the
chunk's padded window is (re)written into `fibre_space` from the
window-local distance transform.  Voxels outside the window keep the
previous contents. -/
def chunkPass (fibreRad : ℕ) (pore : Vox → ℕ) (win : List Vox)
    (fs : Vox → ℕ) : Vox → ℕ :=
  fun v => if win.contains v then edtClassify fibreRad (edtSqWin pore win v) else fs v

/-- Per-axis chunk count (lines 525-536): `ceil(l / chunk_len)` when the
axis length exceeds the chunk length, else 1. -/
def chunkCount (clen l : ℕ) : ℕ :=
  if clen < l then (l + clen - 1) / clen else 1

/-- Window bounds of chunk `ci` along one axis (lines 556-568): from
`ci * chunk_len` to `(ci+1) * chunk_len + 5 * fibre_rad`, clipped to the
axis length. -/
def chunkWin (clen fibreRad l ci : ℕ) : ℕ × ℕ :=
  (ci * clen, min ((ci + 1) * clen + 5 * fibreRad) l)

/-- Chunk index triples in loop order (lines 550-552). -/
def chunkIndices (cx cy cz : ℕ) : List (ℕ × ℕ × ℕ) :=
  winVoxels 0 cx 0 cy 0 cz

/-- Model of the fibre image produced by `_get_fibre_image`
(lines 513-584).  `chunked = false` is the full-memory branch: one chunk
whose length is the largest grid dimension, so the single window covers
the whole grid.  `chunked = true` is the fallback branch: chunk length
100 with per-axis chunk counts.  The rasterized line points seed
`pore_space`; each chunk then classifies every voxel of its padded
window from the window-local distance transform, later chunks
overwriting earlier ones where windows overlap. -/
def getFibreImage (chunked : Bool) (lx ly lz fibreRad : ℕ)
    (linePts : List Vox) : Vox → ℕ :=
  let pore := rasterLinePoints lx ly lz linePts (fun _ => 1)
  let clen := if chunked then 100 else max lx (max ly lz)
  let cx := if chunked then chunkCount 100 lx else 1
  let cy := if chunked then chunkCount 100 ly else 1
  let cz := if chunked then chunkCount 100 lz else 1
  (chunkIndices cx cy cz).foldl
    (fun fs c =>
      let wx := chunkWin clen fibreRad lx c.1
      let wy := chunkWin clen fibreRad ly c.2.1
      let wz := chunkWin clen fibreRad lz c.2.2
      chunkPass fibreRad pore (winVoxels wx.1 wx.2 wy.1 wy.2 wz.1 wz.2) fs)
    (fun _ => 0)

/-- Claim C3, evaluated at the failing input: a 150×1×1 grid with fibre
radius 2 and line voxels at x = 99 and x = 149.  Chunked processing
splits the x axis at 100; the second chunk's window starts at x = 100
and cannot see the seed at x = 99, and it overwrites the first chunk's
(correct) value at x = 100 because the windows overlap.  Voxel
(100,0,0) is therefore pore space (1) under chunked processing but
fibre (0, distance 1 ≤ 2 from the seed at 99) under single-pass
processing: the two modes disagree, while the spec requires them to be
identical. -/
theorem fibre_image_chunked_differs :
    getFibreImage true 150 1 1 2 [(99, 0, 0), (149, 0, 0)] (100, 0, 0) = 1 ∧
    getFibreImage false 150 1 1 2 [(99, 0, 0), (149, 0, 0)] (100, 0, 0) = 0 := by
  constructor
  · decide
  · decide

/- ------------------------------------------------------------------ -/
/- Memory-fallback behaviour of _get_fibre_image (lines 512-586)       -/
/- ------------------------------------------------------------------ -/

/-- The three full-size arrays allocated inside the `try` block
(lines 514-516), in allocation order. -/
inductive AllocStage where
  | poreSpace
  | fibreSpace
  | dtArr
  deriving DecidableEq, Inhabited

/-- Reading a Python local: `none` models a local whose assignment was
skipped because the allocation raised; using it raises
`UnboundLocalError` (a `NameError`), which nothing in the function
catches (the `except` on line 544 handles only `IndexError`). -/
def useLocal {α : Type} (l : Option α) : Except PyErr α :=
  match l with
  | some a => .ok a
  | none => .error .nameError

/-- One chunk-loop iteration of `_get_fibre_image` under possibly-unbound
locals (lines 553-582): the distance transform reads `pore_space`, then
`fibre_space` and `dt` are written over the chunk's padded window.  The
`dt` grid carries the squared window distance exactly; the code stores
`dtc - fibre_rad`, a strictly monotone function of it that no claim
inspects. -/
def chunkStepMem (fibreRad : ℕ) (poreL : Option (Vox → ℕ))
    (lx ly lz clen : ℕ)
    (st : Option (Vox → ℕ) × Option (Vox → Option ℤ)) (c : ℕ × ℕ × ℕ) :
    Except PyErr (Option (Vox → ℕ) × Option (Vox → Option ℤ)) :=
  match poreL with
  | none => .error .nameError
  | some pore =>
      match st.1 with
      | none => .error .nameError
      | some fs =>
          let wx := chunkWin clen fibreRad lx c.1
          let wy := chunkWin clen fibreRad ly c.2.1
          let wz := chunkWin clen fibreRad lz c.2.2
          let win := winVoxels wx.1 wx.2 wy.1 wy.2 wz.1 wz.2
          match st.2 with
          | none => .error .nameError
          | some dt =>
              .ok (some (chunkPass fibreRad pore win fs),
                some (fun v => if win.contains v then edtSqWin pore win v else dt v))

/-- Locals bound by the `try` block (lines 513-516) as a function of the
failing allocation: `pore_space`, `fibre_space` and `dt` are allocated
in that order, so an allocation failure leaves the earlier arrays bound
and the failing and later arrays unbound. -/
def boundLocals :
    Option AllocStage →
      Option (Vox → ℕ) × Option (Vox → ℕ) × Option (Vox → Option ℤ)
  | none => (some (fun _ => 1), some (fun _ => 0), some (fun _ => none))
  | some AllocStage.poreSpace => (none, none, none)
  | some AllocStage.fibreSpace => (some (fun _ => 1), none, none)
  | some AllocStage.dtArr => (some (fun _ => 1), some (fun _ => 0), none)

/-- Chunk length and per-axis chunk counts: a successful allocation uses
a single chunk spanning the whole grid (lines 517-519); an allocation
failure enters the `except` branch, which sets chunk length 100 and the
per-axis counts (lines 520-536). -/
def memChunkParams (failAt : Option AllocStage) (lx ly lz : ℕ) :
    ℕ × ℕ × ℕ × ℕ :=
  match failAt with
  | none => (max lx (max ly lz), 1, 1, 1)
  | some _ => (100, chunkCount 100 lx, chunkCount 100 ly, chunkCount 100 lz)

/-- Model of `_get_fibre_image`'s allocation and fallback behaviour
(lines 512-586).  `failAt = some k` means allocation `k` raised
`MemoryError`; the rasterization loop, the chunk loop and the final
image assignments (lines 539-586) then run, in program order, against
the locals that the `try` block managed to bind. -/
def getFibreImageMem (failAt : Option AllocStage) (lx ly lz fibreRad : ℕ)
    (linePts : List Vox) : Except PyErr ((Vox → ℕ) × (Vox → Option ℤ)) :=
  let locals := boundLocals failAt
  let params := memChunkParams failAt lx ly lz
  let rasterRes : Except PyErr (Option (Vox → ℕ)) :=
    if linePts.isEmpty then .ok locals.1
    else
      match locals.1 with
      | none => .error .nameError
      | some ps => .ok (some (rasterLinePoints lx ly lz linePts ps))
  match rasterRes with
  | .error e => .error e
  | .ok poreL =>
      match (chunkIndices params.2.1 params.2.2.1 params.2.2.2).foldlM
          (chunkStepMem fibreRad poreL lx ly lz params.1)
          (locals.2.1, locals.2.2) with
      | .error e => .error e
      | .ok st =>
          match poreL with
          | none => .error .nameError
          | some _ =>
              match st.1 with
              | none => .error .nameError
              | some fs =>
                  match st.2 with
                  | none => .error .nameError
                  | some dt => .ok (fs, dt)

theorem chunkCount_pos (l : ℕ) : 0 < chunkCount 100 l := by
  unfold chunkCount
  split
  · exact Nat.div_pos (by omega) (by norm_num)
  · norm_num

theorem chunkIndices_ne_nil (cx cy cz : ℕ) (hx : 0 < cx) (hy : 0 < cy)
    (hz : 0 < cz) : chunkIndices cx cy cz ≠ [] := by
  intro h
  have hmem : ((0, 0, 0) : ℕ × ℕ × ℕ) ∈ chunkIndices cx cy cz := by
    unfold chunkIndices winVoxels
    simp only [Nat.sub_zero, List.mem_flatMap, List.mem_map, List.mem_range]
    exact ⟨0, hx, 0, hy, 0, hz, rfl⟩
  rw [h] at hmem
  cases hmem

theorem except_bind_error {ε α β : Type} (e : ε) (g : α → Except ε β) :
    ((Except.error e : Except ε α) >>= g) = Except.error e := rfl

theorem foldlM_head_error {α β : Type} (f : β → α → Except PyErr β)
    (init : β) (l : List α) (e : PyErr) (hl : l ≠ [])
    (hf : ∀ a, f init a = .error e) :
    l.foldlM f init = .error e := by
  obtain ⟨a, l', rfl⟩ := List.exists_cons_of_ne_nil hl
  rw [List.foldlM_cons, hf a, except_bind_error]

/-- Claim C4, refuted on the code: when any of the three full-size
allocations fails, the `except` branch only sets chunk counts and never
allocates replacement arrays, so the subsequent code hits an unbound
local (`pore_space` in the rasterization loop or the distance
transform, `fibre_space` or `dt` in the chunk-loop writes, or any of
them in the final assignments) and raises instead of completing the
chunked computation.  The claim requires the fallback to complete and
produce both images. -/
theorem fibre_image_alloc_failure_raises (k : AllocStage)
    (lx ly lz fibreRad : ℕ) (linePts : List Vox) :
    getFibreImageMem (some k) lx ly lz fibreRad linePts = .error .nameError := by
  have hne : chunkIndices (chunkCount 100 lx) (chunkCount 100 ly)
      (chunkCount 100 lz) ≠ [] :=
    chunkIndices_ne_nil _ _ _ (chunkCount_pos lx) (chunkCount_pos ly)
      (chunkCount_pos lz)
  cases k with
  | poreSpace =>
      by_cases hp : linePts.isEmpty
      · show getFibreImageMem (some AllocStage.poreSpace) lx ly lz fibreRad
          linePts = Except.error PyErr.nameError
        unfold getFibreImageMem boundLocals memChunkParams
        simp only [hp, ↓reduceIte]
        rw [foldlM_head_error _ _ _ PyErr.nameError hne
          (fun a => by rfl)]
      · unfold getFibreImageMem boundLocals memChunkParams
        simp only [hp, Bool.false_eq_true, ↓reduceIte]
  | fibreSpace =>
      by_cases hp : linePts.isEmpty
      · unfold getFibreImageMem boundLocals memChunkParams
        simp only [hp, ↓reduceIte]
        rw [foldlM_head_error _ _ _ PyErr.nameError hne
          (fun a => by rfl)]
      · unfold getFibreImageMem boundLocals memChunkParams
        simp only [hp, Bool.false_eq_true, ↓reduceIte]
        rw [foldlM_head_error _ _ _ PyErr.nameError hne
          (fun a => by rfl)]
  | dtArr =>
      by_cases hp : linePts.isEmpty
      · unfold getFibreImageMem boundLocals memChunkParams
        simp only [hp, ↓reduceIte]
        rw [foldlM_head_error _ _ _ PyErr.nameError hne
          (fun a => by rfl)]
      · unfold getFibreImageMem boundLocals memChunkParams
        simp only [hp, Bool.false_eq_true, ↓reduceIte]
        rw [foldlM_head_error _ _ _ PyErr.nameError hne
          (fun a => by rfl)]

/- ------------------------------------------------------------------ -/
/- 2D image-analysis primitives for _throat_props                      -/
/- ------------------------------------------------------------------ -/

/-- 2D pixel coordinate in an image. -/
abbrev Pix := ℤ × ℤ

/-- Minimum of a list of rationals (`np.min`; the empty case never
arises because empty vertex lists error out before any use). -/
def qminList : List ℚ → ℚ
  | [] => 0
  | a :: t => t.foldl (fun m b => if qlt b m then b else m) a

/-- Maximum of a list of rationals (`np.max`). -/
def qmaxList : List ℚ → ℚ
  | [] => 0
  | a :: t => t.foldl (fun m b => if qlt m b then b else m) a

/-- z-component of the cross product `(b - a) × (c - a)`. -/
def cross2 (a b c : Pix) : ℤ :=
  (b.1 - a.1) * (c.2 - a.2) - (b.2 - a.2) * (c.1 - a.1)

/-- Membership of `p` in the (possibly degenerate) triangle `u v w`:
the three orientation signs agree (or vanish), and `p` lies in the
bounding box (the box condition settles the collinear cases). -/
def inTriangle (u v w p : Pix) : Bool :=
  let d1 := cross2 u v p
  let d2 := cross2 v w p
  let d3 := cross2 w u p
  ((0 ≤ d1 && 0 ≤ d2 && 0 ≤ d3) || (d1 ≤ 0 && d2 ≤ 0 && d3 ≤ 0)) &&
    (min u.1 (min v.1 w.1) ≤ p.1 && p.1 ≤ max u.1 (max v.1 w.1) &&
      min u.2 (min v.2 w.2) ≤ p.2 && p.2 ≤ max u.2 (max v.2 w.2))

/-- Membership of pixel `p` in the convex hull of the pixel set `S`, by
2D Carathéodory: some (possibly degenerate) triangle of points of `S`
contains `p`.  This models skimage `convex_hull_image`, which fills
every pixel lying in the convex hull of the marked pixels. -/
def inHullPix (S : List Pix) (p : Pix) : Bool :=
  S.any (fun u => S.any (fun v => S.any (fun w => inTriangle u v w p)))

/-- Row-major enumeration of the pixel rectangle `[0,n1) × [0,n2)`. -/
def rect2 (n1 n2 : ℕ) : List Pix :=
  (List.range n1).flatMap (fun i => (List.range n2).map (fun j => ((i : ℤ), (j : ℤ))))

/-- Squared Euclidean distance between two pixels. -/
def distSq2 (a b : Pix) : ℤ :=
  (a.1 - b.1) * (a.1 - b.1) + (a.2 - b.2) * (a.2 - b.2)

/-- Minimum squared distance from `p` to a pixel of `tgts` (`none` when
`tgts` is empty). -/
def minDistSq2 (tgts : List Pix) (p : Pix) : Option ℤ :=
  tgts.foldl
    (fun m w =>
      match m with
      | none => some (distSq2 p w)
      | some m' => some (min m' (distSq2 p w)))
    none

/-- Index of the first coordinate of `coords` at minimal squared
distance from `p` (`np.argmin` keeps the first occurrence of the
minimum). -/
def argminIdx (p : Pix) (coords : List Pix) : ℕ :=
  match coords with
  | [] => 0
  | c0 :: rest =>
      (rest.foldl
        (fun (st : ℕ × ℕ × ℤ) w =>
          let i := st.1 + 1
          if distSq2 p w < st.2.2 then (i, i, distSq2 p w) else (i, st.2.1, st.2.2))
        (0, 0, distSq2 p c0)).2.1

/-- Index of the first maximal entry of a value list (`np.argmax` keeps
the first occurrence of the maximum). -/
def argmaxIdxVal (vals : List ℤ) : ℕ :=
  match vals with
  | [] => 0
  | v0 :: rest =>
      (rest.foldl
        (fun (st : ℕ × ℕ × ℤ) w =>
          let i := st.1 + 1
          if st.2.2 < w then (i, i, w) else (i, st.2.1, st.2.2))
        (0, 0, v0)).2.1

/-- The four edge-neighbours of a pixel. -/
def neighbors4 (p : Pix) : List Pix :=
  [(p.1 + 1, p.2), (p.1 - 1, p.2), (p.1, p.2 + 1), (p.1, p.2 - 1)]

/-- The four diagonal neighbours of a pixel. -/
def diagNeighbors (p : Pix) : List Pix :=
  [(p.1 + 1, p.2 + 1), (p.1 + 1, p.2 - 1), (p.1 - 1, p.2 + 1), (p.1 - 1, p.2 - 1)]

/-- Border image of `skimage.measure.perimeter`: the image minus its
binary erosion by the 4-connected structuring element with
`border_value=0`, i.e. the region pixels that have a 4-neighbour outside
the region (pixels outside the image count as background). -/
def borderPix (R : List Pix) : List Pix :=
  R.filter (fun p => (neighbors4 p).any (fun q => !(R.contains q)))

/-- Value of the perimeter convolution
(`kernel [[10,2,10],[2,1,2],[10,2,10]]`) of the border image at a border
pixel: `1` for the pixel itself plus `2` per orthogonal border
neighbour plus `10` per diagonal border neighbour.  Non-border pixels
produce even values, to which the weight table assigns zero, so only
border pixels contribute. -/
def borderCode (B : List Pix) (p : Pix) : ℕ :=
  1 + 2 * ((neighbors4 p).filter (fun q => B.contains q)).length +
    10 * ((diagNeighbors p).filter (fun q => B.contains q)).length

/-- The perimeter estimate of `skimage.measure.perimeter` (which
`regionprops.perimeter` calls with 4-connectivity), as the three counts
of border pixels whose convolution code carries weight `1` (codes
5, 7, 15, 17, 25, 27), weight `√2` (codes 21, 33) and weight
`(1+√2)/2` (codes 13, 23); every other code has weight zero.  The
total perimeter is `unit·1 + diag·√2 + corner·(1+√2)/2`; in particular
isolated border pixels (code 1), dominoes (code 3) and any region with
no adjacent border pair measure zero. -/
def perimCounts (R : List Pix) : ℕ × ℕ × ℕ :=
  (((borderPix R).filter
      (fun p => [5, 7, 15, 17, 25, 27].contains (borderCode (borderPix R) p))).length,
    ((borderPix R).filter
      (fun p => [21, 33].contains (borderCode (borderPix R) p))).length,
    ((borderPix R).filter
      (fun p => [13, 23].contains (borderCode (borderPix R) p))).length)

/-- First-occurrence deduplication, preserving order: models the
`if vert not in offset_verts: offset_verts.append(vert)` loop
(lines 303-308). -/
def dedupKeepFirst (l : List ℕ) : List ℕ :=
  l.foldl (fun acc v => if acc.contains v then acc else acc ++ [v]) []

/-- Number of base-10 digits above the leading one (`⌊log10 n⌋` for
`n ≥ 1`), computed with explicit fuel so that it kernel-evaluates. -/
def digitsLen : ℕ → ℕ → ℕ
  | 0, _ => 0
  | fuel + 1, n => if n < 10 then 0 else digitsLen fuel (n / 10) + 1

/-- Floor of the base-10 logarithm of a positive rational, from the
digit counts of numerator and denominator. -/
def qlog10floor (m : ℚ) : ℤ :=
  let a := m.num.toNat
  let b := m.den
  let da := digitsLen a a
  let db := digitsLen b b
  if b * 10 ^ da ≤ a * 10 ^ db then (da : ℤ) - db else (da : ℤ) - db - 1

/-- Power of ten as a rational, kernel-evaluable. -/
def qpow10 (n : ℤ) : ℚ :=
  if 0 ≤ n then mkRat (((10 : ℕ) ^ n.toNat : ℕ) : ℤ) 1
  else mkRat 1 ((10 : ℕ) ^ (-n).toNat)

/-- Model of `np.around(q, n)`: round to `n` decimal places, halves to
even. -/
def around10 (q : ℚ) (n : ℤ) : ℚ :=
  qdiv ((nround (qmul q (qpow10 n)) : ℤ) : ℚ) (qpow10 n)

/-- Comparison relation used to model `np.unique`'s sort. -/
def qleRel (a b : ℚ) : Prop := qle a b = true

instance : DecidableRel qleRel := fun a b =>
  inferInstanceAs (Decidable (qle a b = true))

/-- The facet plane coordinate (lines 256-261): round the z values to
`order + 2` decimals, take the sorted distinct values (`np.unique`), and
if more than one remains, log an error and use their mean. -/
def zPlaneOf (zs : List ℚ) (order : ℤ) : ℚ :=
  let zr := (zs.map (fun z => around10 z (order + 2))).dedup
  let uniq := List.insertionSort qleRel zr
  match uniq with
  | [z] => z
  | l => qdiv (l.foldl qadd 0) ((l.length : ℕ) : ℚ)

/-- Test `sqrt dSq > r` on the squared distance `dSq ≥ 0` (`none` stands
for an unboundedly large distance, which arises only when the binary
image has no background pixel). -/
def edtGtOpt (r : ℚ) (d : Option ℤ) : Bool :=
  match d with
  | some dSq => qlt r 0 || qlt (qmul r r) ((dSq : ℤ) : ℚ)
  | none => true

/- ------------------------------------------------------------------ -/
/- VoronoiGeometry._throat_props (VoronoiFibers.py lines 184-353)      -/
/- ------------------------------------------------------------------ -/

/-- Per-throat outputs of the facet cross-section analyzer, as stored in
the `throat.*` arrays.  Occluded throats keep the zero-initialized
entries (and no offset-vertex polygon).  The inradius, the equivalent
diameter and the perimeter involve irrational square roots, so their
exact content is carried as `dtMaxSq` (the squared distance-transform
maximum; the stored inradius is `sqrt dtMaxSq / f`), `areaPix` (the
stored equivalent diameter is `sqrt (4 areaPix / π) / f`, see
`equivDiameter`), and the three perimeter weight counts of
`perimCounts` (the stored perimeter is
`(unit + diag·√2 + corner·(1+√2)/2) / f`, see `perimeterVal`). -/
structure ThroatRes where
  occluded : Bool
  areaPix : ℕ
  area : ℚ
  perimUnit : ℕ
  perimDiag : ℕ
  perimCorner : ℕ
  fscale : ℚ
  dtMaxSq : ℤ
  centroid : Vec3
  incentre : Vec3
  offsetVerts : List Vec3
  deriving DecidableEq, Inhabited

/-- Result of a throat whose extraction never ran or was abandoned: all
stored entries keep their zero initialization (lines 193-202, 342-345),
and no offset-vertex polygon is stored. -/
def occludedRes (f : ℚ) : ThroatRes :=
  ⟨true, 0, 0, 0, 0, 0, f, 0, ⟨0, 0, 0⟩, ⟨0, 0, 0⟩, []⟩

/-- The facet's 2D points after dropping z and translating the minimum
to the origin (lines 224-231). -/
def facetPts2 (facet : List Vec3) : List (ℚ × ℚ) :=
  facet.map (fun v =>
    (qsub v.x (qminList (facet.map Vec3.x)), qsub v.y (qminList (facet.map Vec3.y))))

/-- `max_factor` (line 235): the largest coordinate of the translated 2D
points, which equals the larger of the two spans. -/
def maxFactorOf (facet : List Vec3) : ℚ :=
  qmaxList ((facetPts2 facet).map Prod.fst ++ (facetPts2 facet).map Prod.snd)

/-- The scaled fibre-radius offset `r = f * offset` with
`f = res / max_factor` (lines 236-238). -/
def scaledOffset (res : ℚ) (facet : List Vec3) (offset : ℚ) : ℚ :=
  qmul (qdiv res (maxFactorOf facet)) offset

/-- Skip decision of line 239-241: extraction proceeds only when
`r <= res / 2`; otherwise the throat is left fully occluded. -/
def skipThroat (res : ℚ) (facet : List Vec3) (offset : ℚ) : Bool :=
  !(qle (scaledOffset res facet offset) (qdiv res 2))

/-- Success-branch outputs (lines 273-341): region properties of the
cropped eroded image, the incircle from a second distance transform of
the padded eroded image, and the offset vertices; lengths are divided
by `f`, the area by `f²`, and the 2D quantities are translated back and
completed with the facet plane coordinate. -/
def successRes (f tx ty zplane : ℚ) (intPts cropped pad eroded : List Pix) :
    ThroatRes :=
  let areaPix := cropped.length
  let nonEr := pad.filter (fun p => !(eroded.contains p))
  let dtVals := pad.map (fun p => (minDistSq2 nonEr p).getD 0)
  let inPix := pad.getD (argmaxIdxVal dtVals) (0, 0)
  let x0 := qdiv (((cropped.map Prod.fst).sum : ℤ) : ℚ) ((areaPix : ℕ) : ℚ)
  let y0 := qdiv (((cropped.map Prod.snd).sum : ℤ) : ℚ) ((areaPix : ℕ) : ℚ)
  let ocoords := (dedupKeepFirst (intPts.map (fun pt => argminIdx pt cropped))).map
    (fun vi => cropped.getD vi (0, 0))
  { occluded := false
    areaPix := areaPix
    area := qdiv ((areaPix : ℕ) : ℚ) (qmul f f)
    perimUnit := (perimCounts cropped).1
    perimDiag := (perimCounts cropped).2.1
    perimCorner := (perimCounts cropped).2.2
    fscale := f
    dtMaxSq := dtVals.foldl max 0
    centroid := ⟨qadd (qdiv x0 f) tx, qadd (qdiv y0 f) ty, zplane⟩
    incentre := ⟨qadd (qdiv ((inPix.1 : ℤ) : ℚ) f) tx,
      qadd (qdiv ((inPix.2 : ℤ) : ℚ) f) ty, zplane⟩
    offsetVerts := ocoords.map (fun c =>
      ⟨qadd (qdiv ((c.1 : ℤ) : ℚ) f) tx, qadd (qdiv ((c.2 : ℤ) : ℚ) f) ty, zplane⟩) }

/-- Image-analysis stage of `_throat_props` for one throat
(lines 241-345), reached when `r ≤ res/2`: scale the translated points
by `f`, rasterize them (half-even rounding) into an image padded by one
empty ring, fill the convex hull, erode it by thresholding the distance
transform at `r`, and extract the outputs, abandoning the throat as
occluded when fewer than 3 eroded pixels survive, when the label image
has no region, or when fewer than 3 distinct offset vertices are
recovered. -/
def throatImageAnalysis (res : ℚ) (facet : List Vec3) (offset : ℚ) : ThroatRes :=
  let f := qdiv res (maxFactorOf facet)
  let r := scaledOffset res facet offset
  let tx := qminList (facet.map Vec3.x)
  let ty := qminList (facet.map Vec3.y)
  let pts := (facetPts2 facet).map (fun p => (qmul p.1 f, qmul p.2 f))
  let minp1 := qminList (pts.map Prod.fst)
  let minp2 := qminList (pts.map Prod.snd)
  let maxp1 := qmaxList (pts.map Prod.fst)
  let maxp2 := qmaxList (pts.map Prod.snd)
  let n1 : ℕ := (⌈qsub maxp1 minp1⌉ + 1).toNat
  let n2 : ℕ := (⌈qsub maxp2 minp2⌉ + 1).toNat
  let intPts : List Pix := pts.map (fun p => (nround p.1, nround p.2))
  let zplane := zPlaneOf (facet.map Vec3.z) (-(qlog10floor (maxFactorOf facet)))
  let shifted := intPts.map (fun p => (p.1 + 1, p.2 + 1))
  let pad := rect2 (n1 + 2) (n2 + 2)
  let bg := pad.filter (fun p => !(inHullPix shifted p))
  let eroded := pad.filter (fun p =>
    if inHullPix shifted p then edtGtOpt r (minDistSq2 bg p)
    else edtGtOpt r (some 0))
  if 3 ≤ eroded.length then
    let cropped := (eroded.filter (fun p =>
        1 ≤ p.1 && p.1 ≤ (n1 : ℤ) && 1 ≤ p.2 && p.2 ≤ (n2 : ℤ))).map
      (fun p => (p.1 - 1, p.2 - 1))
    if cropped.length = 0 then occludedRes f
    else if 3 ≤ (dedupKeepFirst (intPts.map (fun pt => argminIdx pt cropped))).length then
      successRes f tx ty zplane intPts cropped pad eroded
    else occludedRes f
  else occludedRes f

/-- Model of the per-throat body of `_throat_props` (lines 209-345)
applied to the facet in its rotated frame: degenerate vertex lists
raise before any extraction (`np.min` of an empty sequence raises
`ValueError`; a zero maximum makes `-np.log10` infinite and
`math.ceil(inf)` raises `OverflowError` on line 232, before `f` is even
formed), then the `r ≤ res/2` guard selects between extraction and full
occlusion.  `res` is the fixed target resolution, 200 in the source
(line 204). -/
def throat_props_core (res : ℚ) (facet : List Vec3) (offset : ℚ) :
    Except PyErr ThroatRes :=
  match facet with
  | [] => .error .valueError
  | _ :: _ =>
      if qle (maxFactorOf facet) 0 then .error .overflowError
      else if qle (scaledOffset res facet offset) (qdiv res 2) then
        .ok (throatImageAnalysis res facet offset)
      else .ok (occludedRes (qdiv res (maxFactorOf facet)))

/-- The stored equivalent diameter of a throat: skimage's documented
`equivalent_diameter = sqrt (4 · area / π)` of the region, divided by
the scale factor (lines 281, 340); occluded throats keep the stored
zero, which the formula reproduces since their `areaPix` is zero. -/
noncomputable def equivDiameter (t : ThroatRes) : ℝ :=
  Real.sqrt (4 * (t.areaPix : ℝ) / Real.pi) / ((t.fscale : ℚ) : ℝ)

/-- The stored perimeter of a throat: the `regionprops` perimeter of the
region (the weighted border-pixel count of `perimCounts`) divided by the
scale factor (lines 283, 339); occluded throats keep the stored zero,
which the formula reproduces since their counts are zero. -/
noncomputable def perimeterVal (t : ThroatRes) : ℝ :=
  ((t.perimUnit : ℝ) + (t.perimDiag : ℝ) * Real.sqrt 2 +
    (t.perimCorner : ℝ) * ((1 + Real.sqrt 2) / 2)) / ((t.fscale : ℚ) : ℝ)

theorem equivDiameter_occluded (f : ℚ) : equivDiameter (occludedRes f) = 0 := by
  unfold equivDiameter occludedRes
  norm_num

theorem perimeterVal_occluded (f : ℚ) : perimeterVal (occludedRes f) = 0 := by
  unfold perimeterVal occludedRes
  norm_num

/-- Square throat facet with side 10 voxel lengths in the z = 0 plane:
the concrete facet of the spec's scenarios. -/
def square10 : List Vec3 :=
  [⟨0, 0, 0⟩, ⟨10, 0, 0⟩, ⟨10, 10, 0⟩, ⟨0, 10, 0⟩]

/-- Claim C5, counterexample at the boundary: for the square facet of
side 10 with fibre radius 5 at the source's resolution 200, the scaled
offset is exactly half the image span (`r = 100 = res/2`), so the claim
says extraction is skipped; but the code's guard is `r <= res/2`, so
extraction proceeds (the skip decision is false). -/
theorem throat_skip_boundary_counterexample :
    scaledOffset 200 square10 5 = 100 ∧
    (200 : ℚ) / 2 ≤ scaledOffset 200 square10 5 ∧
    skipThroat 200 square10 5 = false := by
  refine ⟨by decide, ?_, by decide⟩
  rw [show scaledOffset 200 square10 5 = 100 from by decide]
  norm_num

/-- Claim C5 as amended: extraction is skipped exactly when the scaled
offset is strictly greater than half the span, and every skipped throat
is fully occluded with all outputs zero. -/
theorem throat_skip_occludes (res : ℚ) (facet : List Vec3) (offset : ℚ)
    (out : ThroatRes) (hok : throat_props_core res facet offset = .ok out)
    (hskip : skipThroat res facet offset = true) :
    out = occludedRes (qdiv res (maxFactorOf facet)) ∧
    out.occluded = true ∧ out.area = 0 ∧ perimeterVal out = 0 ∧
    out.areaPix = 0 ∧ equivDiameter out = 0 := by
  cases facet with
  | nil => exact Except.noConfusion hok
  | cons v0 rest =>
      rw [throat_props_core] at hok
      split at hok
      · exact Except.noConfusion hok
      · split at hok
        · exfalso
          rename_i hle
          rw [skipThroat, hle] at hskip
          cases hskip
        · have hout := (Except.ok.inj hok).symm
          subst hout
          exact ⟨rfl, rfl, rfl, perimeterVal_occluded _, rfl,
            equivDiameter_occluded _⟩

/-- Witness for the amended claim C5 at the spec's concrete scenario:
the square facet of side 10 with fibre radius 6 at resolution 200 has
scaled offset 120 > 100, is skipped, and all its outputs are zero. -/
theorem throat_skip_occludes_witness :
    throat_props_core 200 square10 6 = .ok (occludedRes (qdiv 200 (maxFactorOf square10))) ∧
    skipThroat 200 square10 6 = true ∧
    ((occludedRes (qdiv 200 (maxFactorOf square10))).occluded = true ∧
      (occludedRes (qdiv 200 (maxFactorOf square10))).area = 0) :=
  ⟨by decide, by decide,
    ⟨(throat_skip_occludes 200 square10 6 _ (by decide) (by decide)).2.1,
      (throat_skip_occludes 200 square10 6 _ (by decide) (by decide)).2.2.1⟩⟩

/- ------------------------------------------------------------------ -/
/- Rotation handling of _throat_props (lines 209-223, 325-334)         -/
/- ------------------------------------------------------------------ -/

/-- 3×3 rational matrix (the `M[:3, :3]` block of the homogeneous
rotation matrices the code manipulates). -/
structure Mat3 where
  a11 : ℚ
  a12 : ℚ
  a13 : ℚ
  a21 : ℚ
  a22 : ℚ
  a23 : ℚ
  a31 : ℚ
  a32 : ℚ
  a33 : ℚ
  deriving DecidableEq, Inhabited

/-- The identity rotation. -/
def mat3Id : Mat3 := ⟨1, 0, 0, 0, 1, 0, 0, 0, 1⟩

/-- Matrix-vector product; `np.dot(v, M.T)` applies `M` to each row
vector `v`. -/
def mulVec3 (M : Mat3) (v : Vec3) : Vec3 :=
  ⟨qadd (qadd (qmul M.a11 v.x) (qmul M.a12 v.y)) (qmul M.a13 v.z),
    qadd (qadd (qmul M.a21 v.x) (qmul M.a22 v.y)) (qmul M.a23 v.z),
    qadd (qadd (qmul M.a31 v.x) (qmul M.a32 v.y)) (qmul M.a33 v.z)⟩

/-- Determinant of a 3×3 matrix. -/
def det3 (M : Mat3) : ℚ :=
  qadd
    (qsub (qmul M.a11 (qsub (qmul M.a22 M.a33) (qmul M.a23 M.a32)))
      (qmul M.a12 (qsub (qmul M.a21 M.a33) (qmul M.a23 M.a31))))
    (qmul M.a13 (qsub (qmul M.a21 M.a32) (qmul M.a22 M.a31)))

/-- Matrix inverse by the adjugate formula: the model of
`tr.inverse_matrix` restricted to the rotation block. -/
def inverse3 (M : Mat3) : Mat3 :=
  let d := det3 M
  ⟨qdiv (qsub (qmul M.a22 M.a33) (qmul M.a23 M.a32)) d,
    qdiv (qsub (qmul M.a13 M.a32) (qmul M.a12 M.a33)) d,
    qdiv (qsub (qmul M.a12 M.a23) (qmul M.a13 M.a22)) d,
    qdiv (qsub (qmul M.a23 M.a31) (qmul M.a21 M.a33)) d,
    qdiv (qsub (qmul M.a11 M.a33) (qmul M.a13 M.a31)) d,
    qdiv (qsub (qmul M.a13 M.a21) (qmul M.a11 M.a23)) d,
    qdiv (qsub (qmul M.a21 M.a32) (qmul M.a22 M.a31)) d,
    qdiv (qsub (qmul M.a12 M.a31) (qmul M.a11 M.a32)) d,
    qdiv (qsub (qmul M.a11 M.a22) (qmul M.a12 M.a21)) d⟩

/-- Undo of the rotation on the stored vector outputs (lines 325-330):
the centroid, incenter and offset vertices are multiplied by the inverse
rotation.  In the code this happens inside the success branch only; on
occluded results all vector outputs are zero and the multiplication
fixes them, so the unconditional form is extensionally identical. -/
def applyUndo (MI : Mat3) (t : ThroatRes) : ThroatRes :=
  { t with
    centroid := mulVec3 MI t.centroid
    incentre := mulVec3 MI t.incentre
    offsetVerts := t.offsetVerts.map (mulVec3 MI) }

/-- The alignment test of lines 213-218:
`tr.angle_between_vectors(normal, z_axis)` is 0 or π exactly when the
normal is a nonzero multiple of the z axis. -/
def isAligned (n : Vec3) : Bool :=
  n.x == 0 && n.y == 0 && !(n.z == 0)

/-- Per-throat dispatch of `_throat_props` (lines 213-223): aligned
facets skip the rotation; otherwise the facet is rotated by the matrix
`M` (computed by `tr.rotation_matrix` from the angle and rotation axis;
trigonometric, hence supplied as a parameter of the model) and the
vector outputs are un-rotated by its inverse. -/
def throat_props_one (res : ℚ) (normal : Vec3) (M : Mat3) (facet : List Vec3)
    (offset : ℚ) : Except PyErr ThroatRes :=
  if isAligned normal then throat_props_core res facet offset
  else (throat_props_core res (facet.map (mulVec3 M)) offset).map
    (applyUndo (inverse3 M))

theorem mulVec3_id (v : Vec3) : mulVec3 mat3Id v = v := by
  cases v with
  | mk x y z =>
      simp only [mulVec3, mat3Id, qadd_eq, qmul_eq, Vec3.mk.injEq]
      refine ⟨by ring, by ring, by ring⟩

theorem inverse3_id : inverse3 mat3Id = mat3Id := by decide

theorem applyUndo_id (t : ThroatRes) : applyUndo mat3Id t = t := by
  unfold applyUndo
  rw [mulVec3_id, mulVec3_id, show (mulVec3 mat3Id) = id from funext mulVec3_id,
    List.map_id]

/-- Claim C8: for a facet whose normal is already aligned with the
reference z axis, the analyzer skips the rotation step, and its result
coincides with explicitly rotating the facet by the identity matrix and
un-rotating the outputs by the identity's inverse. -/
theorem throat_aligned_identity_rotation (res : ℚ) (normal : Vec3) (M : Mat3)
    (facet : List Vec3) (offset : ℚ) (h : isAligned normal = true) :
    throat_props_one res normal M facet offset =
      (throat_props_core res (facet.map (mulVec3 mat3Id)) offset).map
        (applyUndo (inverse3 mat3Id)) := by
  rw [throat_props_one, if_pos h, inverse3_id]
  rw [show (mulVec3 mat3Id) = id from funext mulVec3_id, List.map_id]
  rw [show (applyUndo mat3Id) = id from funext applyUndo_id]
  cases throat_props_core res facet offset <;> rfl

/-- Witness for claim C8 at a concrete aligned normal `(0,0,1)` and the
square facet. -/
theorem throat_aligned_identity_rotation_witness :
    isAligned ⟨0, 0, 1⟩ = true ∧
    throat_props_one 200 ⟨0, 0, 1⟩ mat3Id square10 3 =
      (throat_props_core 200 (square10.map (mulVec3 mat3Id)) 3).map
        (applyUndo (inverse3 mat3Id)) :=
  ⟨by decide,
    throat_aligned_identity_rotation 200 ⟨0, 0, 1⟩ mat3Id square10 3 (by decide)⟩

/- ------------------------------------------------------------------ -/
/- GenericReaction.run (Reaction.py lines 55-77)                       -/
/- ------------------------------------------------------------------ -/

/-- Residual of one `run` iteration (line 71):
`sp.sum(sp.absolute(x_new - x))`. -/
def l1res (xNew x : List ℚ) : ℚ :=
  (List.zipWith (fun a b => qabs (qsub a b)) xNew x).foldl qadd 0

/-- Model of `GenericReaction.run` (lines 55-77). `solve` abstracts one
matrix-update-and-solve step (lines 62-70) producing `x_new` from the
current guess; `dtol` is the default tolerance `0.001`, which the
recursive call `self.run(x_new)` (line 77) always uses since it passes
no `tol` argument. Fuel bounds the recursion depth: the outer `none`
means the recursion did not terminate within the fuel; `some r` means
the Python call returned, with `r = some x` for `return x` (line 74) and
`r = none` for the implicit `return None` reached when the recursive
call's result is discarded (line 77). -/
def reactionRun (solve : List ℚ → List ℚ) (dtol : ℚ) :
    ℕ → List ℚ → ℚ → Option (Option (List ℚ))
  | 0, _, _ => none
  | fuel + 1, x, tol =>
      if qlt (l1res (solve x) x) tol then some (some x)
      else
        match reactionRun solve dtol fuel (solve x) dtol with
        | none => none
        | some _ => some none

/-- Claim C10: `run` returns the current solution vector `x` exactly when
the residual computed on that same call is below the tolerance; when the
tolerance is not met it recurses and discards the recursive call's
return value, so every terminating call needing more than one iteration
returns `None`. -/
theorem reaction_run_return_value (solve : List ℚ → List ℚ) (dtol : ℚ)
    (fuel : ℕ) (x : List ℚ) (tol : ℚ) (r : Option (List ℚ))
    (hterm : reactionRun solve dtol (fuel + 1) x tol = some r) :
    (l1res (solve x) x < tol → r = some x) ∧
    (¬ l1res (solve x) x < tol → r = none) := by
  constructor
  · intro h
    rw [reactionRun, if_pos ((qlt_iff _ _).mpr h)] at hterm
    injection hterm with h2
    exact h2.symm
  · intro h
    have hq : ¬ qlt (l1res (solve x) x) tol = true := fun hc => h ((qlt_iff _ _).mp hc)
    rw [reactionRun, if_neg hq] at hterm
    cases hrec : reactionRun solve dtol fuel (solve x) dtol with
    | none => rw [hrec] at hterm; cases hterm
    | some v =>
        rw [hrec] at hterm
        injection hterm with h2
        exact h2.symm

/-- Step map used by the C10 witness: each solve step quarters the
iterate. -/
def c10solve : List ℚ → List ℚ := fun l => l.map (fun a => qdiv a 4)

/-- Witness for claim C10: starting from `x = [2]` with tolerance `1`,
the first residual is `3/2 ≥ 1`, the second iteration converges, and the
terminating top-level call returns `None`. -/
theorem reaction_run_return_value_witness :
    reactionRun c10solve 1 2 [2] 1 = some none ∧
    ¬ l1res (c10solve [2]) [2] < 1 ∧ (none : Option (List ℚ)) = none :=
  ⟨by decide, fun hc => absurd ((qlt_iff _ _).mpr hc) (by decide),
    (reaction_run_return_value c10solve 1 1 [2] 1 none (by decide)).2
      (fun hc => absurd ((qlt_iff _ _).mpr hc) (by decide))⟩

end OpenPNM
